import Mathlib

/-!
Verification of the compressor-monitoring dashboard (modelo-compresor-1.py).

The script is a single linear pipeline: load a CSV of readings, show a
threshold alert over the full table, filter rows by an inclusive date
range, split the date-filtered rows into an anomaly partition and a
normal partition by three thresholds, optionally export the normal
partition to CSV, fit a least-squares line (timestamp as int64 feature,
pressure as target) on the normal partition and report its in-sample
mean squared error, and finally run a root-cause loop over the rows of
the describe() table of the anomaly partition.

Modelling conventions:
* metric values (presion, temperatura, vibracion) are `Option ℚ`:
  `none` models a missing value (NaN).  Pandas comparison semantics are
  kept exactly: both `NaN > t` and `NaN <= t` evaluate to false.
* timestamps are integers (nanoseconds since the epoch, the exact
  content of a pandas datetime64[ns] and of `astype(np.int64)`); the
  date component used by the filter is the floor division by the number
  of nanoseconds per day.
* the standard-deviation row of describe() is an exact square root: a
  `StatVal.sqrtOf q` value denotes the real number sqrt q, and the
  comparison against a rational threshold is decided exactly by
  squaring (justified by lemma `statGt_sqrtOf_correct` below).
-/

/-- One sensor reading: a row of the loaded table.  Metric fields are
`Option ℚ`, with `none` standing for a missing value (NaN). -/
structure Reading where
  timestamp : ℤ
  presion : Option ℚ
  temperatura : Option ℚ
  vibracion : Option ℚ
deriving DecidableEq, Repr

/-- Nanoseconds in one day: the unit linking a datetime64[ns] timestamp
to its calendar-date component. -/
def nsPerDay : ℤ := 86400000000000

/-- The date component of a timestamp (`.dt.date` in the source):
floor division of nanoseconds-since-epoch by nanoseconds-per-day. -/
def dateOf (ts : ℤ) : ℤ := ts.fdiv nsPerDay

/-- Pandas semantics of `series > t` on a possibly-missing value:
false on NaN, otherwise the strict comparison. -/
def optGt (v : Option ℚ) (t : ℚ) : Bool :=
  match v with
  | none => false
  | some x => decide (t < x)

/-- Pandas semantics of `series <= t` on a possibly-missing value:
false on NaN, otherwise the non-strict comparison. -/
def optLe (v : Option ℚ) (t : ℚ) : Bool :=
  match v with
  | none => false
  | some x => decide (x ≤ t)

/-- Line 63: `filtered_df = df[(df.timestamp.dt.date >= start_date) &
(df.timestamp.dt.date <= end_date)]` — keep the rows whose date
component lies in the inclusive range. -/
def filterByDate (df : List Reading) (startD endD : ℤ) : List Reading :=
  df.filter (fun r => decide (startD ≤ dateOf r.timestamp) && decide (dateOf r.timestamp ≤ endD))

/-- Lines 66-68: the anomaly partition — rows where any metric strictly
exceeds its threshold. -/
def anomaliesOf (l : List Reading) (tp tt tv : ℚ) : List Reading :=
  l.filter (fun r => optGt r.presion tp || optGt r.temperatura tt || optGt r.vibracion tv)

/-- Lines 70-72: the normal partition (the rebound `filtered_df`) —
rows where all three metrics are ≤ their thresholds. -/
def normalOf (l : List Reading) (tp tt tv : ℚ) : List Reading :=
  l.filter (fun r => optLe r.presion tp && optLe r.temperatura tt && optLe r.vibracion tv)

/-- Line 50: the alert predicate over the full loaded table — a logical
OR of three independent any-row exceedance checks. -/
def thresholdAlert (df : List Reading) (tp tt tv : ℚ) : Bool :=
  df.any (fun r => optGt r.presion tp) || df.any (fun r => optGt r.temperatura tt) ||
    df.any (fun r => optGt r.vibracion tv)

/-- A value appearing in a describe() statistics row.  `nan` is a
missing statistic, `rat q` an exact rational, and `sqrtOf q` denotes
the (possibly irrational) real number sqrt q. -/
inductive StatVal where
  | nan : StatVal
  | rat (q : ℚ) : StatVal
  | sqrtOf (q : ℚ) : StatVal
deriving DecidableEq, Repr

/-- Exact comparison `stat > t` of a describe() entry against a
rational threshold, with pandas NaN semantics (false on NaN).  For
`sqrtOf q` (with `0 ≤ q`, as produced by describe) this decides
`t < sqrt q` by squaring. -/
def statGt (v : StatVal) (t : ℚ) : Bool :=
  match v with
  | StatVal.nan => false
  | StatVal.rat q => decide (t < q)
  | StatVal.sqrtOf q => if t < 0 then true else decide (t * t < q)

/-- One row of the describe() table: an index label and the statistic
value of each of the three metric columns. -/
structure StatRow where
  label : String
  presion : StatVal
  temperatura : StatVal
  vibracion : StatVal

/-- The non-missing entries of one metric column, in order — pandas
statistics skip NaN entries. -/
def nonNull (col : List (Option ℚ)) : List ℚ := col.filterMap id

/-- Insert into a sorted list of rationals, keeping it sorted. -/
def insertQ (x : ℚ) : List ℚ → List ℚ
  | [] => [x]
  | y :: ys => if x ≤ y then x :: y :: ys else y :: insertQ x ys

/-- Insertion sort on rationals, used to model quantiles and min/max of
a column. -/
def sortQ : List ℚ → List ℚ
  | [] => []
  | x :: xs => insertQ x (sortQ xs)

/-- The `count` statistic of a column: the number of non-missing
entries (as a number). -/
def colCount (col : List (Option ℚ)) : StatVal :=
  StatVal.rat ((nonNull col).length : ℚ)

/-- The `mean` statistic of a column: sum of the non-missing entries
over their number, NaN when there are none. -/
def colMean (col : List (Option ℚ)) : StatVal :=
  if (nonNull col).isEmpty then StatVal.nan
  else StatVal.rat ((nonNull col).sum / ((nonNull col).length : ℚ))

/-- The `std` statistic of a column: the sample standard deviation
(ddof = 1) of the non-missing entries — the square root of the sum of
squared deviations from the mean divided by (n - 1); NaN when fewer
than two entries are present. -/
def colStd (col : List (Option ℚ)) : StatVal :=
  if (nonNull col).length < 2 then StatVal.nan
  else
    StatVal.sqrtOf
      ((((nonNull col).map
          (fun x => (x - (nonNull col).sum / ((nonNull col).length : ℚ)) ^ 2)).sum) /
        (((nonNull col).length : ℚ) - 1))

/-- The `min` statistic of a column: the head of the sorted non-missing
entries, NaN when there are none. -/
def colMin (col : List (Option ℚ)) : StatVal :=
  match sortQ (nonNull col) with
  | [] => StatVal.nan
  | x :: _ => StatVal.rat x

/-- The `max` statistic of a column: the last of the sorted non-missing
entries, NaN when there are none. -/
def colMax (col : List (Option ℚ)) : StatVal :=
  if (nonNull col).isEmpty then StatVal.nan
  else
    StatVal.rat ((sortQ (nonNull col)).getD ((nonNull col).length - 1) 0)

/-- The linear-interpolation quantile of a column at probability `p`
(the numpy and pandas default): with the non-missing entries sorted,
the index position is `p * (n - 1)`, split into integer part `i` and
fractional part, and the value is interpolated between positions `i`
and `i + 1`; NaN on an empty column. -/
def colQuantile (col : List (Option ℚ)) (p : ℚ) : StatVal :=
  if (nonNull col).isEmpty then StatVal.nan
  else
    let s := sortQ (nonNull col)
    let h : ℚ := p * ((s.length : ℚ) - 1)
    let i : ℕ := h.floor.toNat
    StatVal.rat (s.getD i 0 + (h - (i : ℚ)) * (s.getD (i + 1) 0 - s.getD i 0))

/-- Line 146: `anomaly_features.describe()` — the eight statistics rows
(count, mean, std, min, quartiles, max) of the three metric columns of
a list of readings. -/
def describeRows (l : List Reading) : List StatRow :=
  let ps := l.map (fun r => r.presion)
  let ts := l.map (fun r => r.temperatura)
  let vs := l.map (fun r => r.vibracion)
  [⟨"count", colCount ps, colCount ts, colCount vs⟩,
   ⟨"mean", colMean ps, colMean ts, colMean vs⟩,
   ⟨"std", colStd ps, colStd ts, colStd vs⟩,
   ⟨"min", colMin ps, colMin ts, colMin vs⟩,
   ⟨"25%", colQuantile ps (1 / 4), colQuantile ts (1 / 4), colQuantile vs (1 / 4)⟩,
   ⟨"50%", colQuantile ps (1 / 2), colQuantile ts (1 / 2), colQuantile vs (1 / 2)⟩,
   ⟨"75%", colQuantile ps (3 / 4), colQuantile ts (3 / 4), colQuantile vs (3 / 4)⟩,
   ⟨"max", colMax ps, colMax ts, colMax vs⟩]

/-- The body of the root-cause loop (lines 156-161): starting from the
list built so far, append the pressure label if the pressure statistic
of the row strictly exceeds the pressure threshold, then the
temperature label, then the vibration label, each check independent. -/
def rootStep (tp tt tv : ℚ) (acc : List String) (row : StatRow) : List String :=
  let a1 := if statGt row.presion tp then acc ++ ["Presión alta"] else acc
  let a2 := if statGt row.temperatura tt then a1 ++ ["Temperatura alta"] else a1
  if statGt row.vibracion tv then a2 ++ ["Vibración alta"] else a2

/-- Lines 152-161: the root-cause loop — iterate over the rows of the
anomaly describe() table and, per row, append the fixed pressure,
temperature and vibration labels for each statistic that strictly
exceeds its threshold, into one flat list. -/
def possible_root_causes (stats : List StatRow) (tp tt tv : ℚ) : List String :=
  stats.foldl (rootStep tp tt tv) []

/-- The labels the loop body appends for one statistics row, in the
order the source checks them. -/
def rowLabels (tp tt tv : ℚ) (row : StatRow) : List String :=
  (if statGt row.presion tp then ["Presión alta"] else []) ++
    (if statGt row.temperatura tt then ["Temperatura alta"] else []) ++
      (if statGt row.vibracion tv then ["Vibración alta"] else [])

/-- Line 83-84: the regression data — one (feature, target) pair per
row of the normal partition: the timestamp as a 64-bit integer value
and the pressure.  A row of the normal partition always carries a
pressure value (proved in `normal_presion_some`), so the default 0 of
`getD` is never used there. -/
def dataPairs (l : List Reading) : List (ℚ × ℚ) :=
  l.map (fun r => ((r.timestamp : ℚ), r.presion.getD 0))

/-- Mean of the feature column of the regression data. -/
def xbar (d : List (ℚ × ℚ)) : ℚ := (d.map Prod.fst).sum / (d.length : ℚ)

/-- Mean of the target column of the regression data. -/
def ybar (d : List (ℚ × ℚ)) : ℚ := (d.map Prod.snd).sum / (d.length : ℚ)

/-- Centered second moment of the feature. -/
def sxx (d : List (ℚ × ℚ)) : ℚ := (d.map (fun p => (p.1 - xbar d) ^ 2)).sum

/-- Centered cross moment of feature and target. -/
def sxy (d : List (ℚ × ℚ)) : ℚ :=
  (d.map (fun p => (p.1 - xbar d) * (p.2 - ybar d))).sum

/-- The least-squares slope: `sxy / sxx`, and 0 when the feature is
constant (`sxx = 0`, the minimum-norm solution the library returns). -/
def fitSlope (d : List (ℚ × ℚ)) : ℚ := if sxx d = 0 then 0 else sxy d / sxx d

/-- The least-squares intercept: `ybar - slope * xbar`. -/
def fitIntercept (d : List (ℚ × ℚ)) : ℚ := ybar d - fitSlope d * xbar d

/-- Sum of squared errors of the line `y = a + b x` on the data. -/
def sse (d : List (ℚ × ℚ)) (a b : ℚ) : ℚ :=
  (d.map (fun p => (p.2 - (a + b * p.1)) ^ 2)).sum

/-- Line 94: the reported mean squared error — the sum of squared
errors of the fitted line on the very data it was fitted on, divided by
the number of rows. -/
def mseFit (d : List (ℚ × ℚ)) : ℚ :=
  sse d (fitIntercept d) (fitSlope d) / (d.length : ℚ)

/-- The CSV file written by `to_csv(index=False)`: the serialized rows
and whether a row-index column is included. -/
structure CsvFile where
  rows : List Reading
  withIndex : Bool
deriving DecidableEq

/-- Everything one top-to-bottom run of the script computes from the
loaded table, the two date picks, the three thresholds and the state of
the export button. -/
structure PipelineOut where
  alertShown : Bool
  dateFiltered : List Reading
  anomalies : List Reading
  normalRows : List Reading
  exportOffered : Bool
  exported : Option CsvFile
  trendMSE : Option ℚ
  anomalyWarning : Bool
  anomalyStats : Option (List StatRow)
  rootCauses : Option (List String)

/-- One top-to-bottom run of the script (lines 49-164): alert over the
full table, date filter, anomaly split, export section (only when the
normal partition is non-empty), trend model section (only when the
normal partition is non-empty), and the anomaly statistics and
root-cause sections (only when the anomaly partition is non-empty). -/
def runPipeline (df : List Reading) (startD endD : ℤ) (tp tt tv : ℚ)
    (exportPressed : Bool) : PipelineOut :=
  let filtered := filterByDate df startD endD
  let anoms := anomaliesOf filtered tp tt tv
  let normals := normalOf filtered tp tt tv
  { alertShown := thresholdAlert df tp tt tv
    dateFiltered := filtered
    anomalies := anoms
    normalRows := normals
    exportOffered := !normals.isEmpty
    exported := if !normals.isEmpty && exportPressed then some ⟨normals, false⟩ else none
    trendMSE := if normals.isEmpty then none else some (mseFit (dataPairs normals))
    anomalyWarning := !anoms.isEmpty
    anomalyStats := if anoms.isEmpty then none else some (describeRows anoms)
    rootCauses :=
      if anoms.isEmpty then none
      else some (possible_root_causes (describeRows anoms) tp tt tv) }

/-- The fixed output path of the exporter. -/
def exportPath : String := "datos_filtrados.csv"

/-- Overwrite one path of a name-indexed file store. -/
def writeFs (fs : String → Option CsvFile) (path : String) (c : CsvFile) :
    String → Option CsvFile :=
  fun p => if p = path then some c else fs p

/-- The file store after a run: unchanged unless the export fired, in
which case the output path is overwritten with the exported file. -/
def fsAfterRun (out : PipelineOut) (fs : String → Option CsvFile) :
    String → Option CsvFile :=
  match out.exported with
  | none => fs
  | some c => writeFs fs exportPath c

/-! ### Basic characterizations of the comparisons and filters -/

theorem optGt_eq_true_iff (v : Option ℚ) (t : ℚ) :
    optGt v t = true ↔ ∃ x, v = some x ∧ t < x := by
  cases v <;> simp [optGt]

theorem optLe_eq_true_iff (v : Option ℚ) (t : ℚ) :
    optLe v t = true ↔ ∃ x, v = some x ∧ x ≤ t := by
  cases v <;> simp [optLe]

theorem mem_filterByDate (df : List Reading) (s e : ℤ) (r : Reading) :
    r ∈ filterByDate df s e ↔ r ∈ df ∧ s ≤ dateOf r.timestamp ∧ dateOf r.timestamp ≤ e := by
  simp [filterByDate, List.mem_filter]

theorem mem_anomaliesOf (l : List Reading) (tp tt tv : ℚ) (r : Reading) :
    r ∈ anomaliesOf l tp tt tv ↔
      r ∈ l ∧ ((∃ x, r.presion = some x ∧ tp < x) ∨ (∃ x, r.temperatura = some x ∧ tt < x) ∨
        (∃ x, r.vibracion = some x ∧ tv < x)) := by
  simp [anomaliesOf, List.mem_filter, optGt_eq_true_iff]
  intro _
  exact or_assoc

theorem mem_normalOf (l : List Reading) (tp tt tv : ℚ) (r : Reading) :
    r ∈ normalOf l tp tt tv ↔
      r ∈ l ∧ (∃ x, r.presion = some x ∧ x ≤ tp) ∧ (∃ x, r.temperatura = some x ∧ x ≤ tt) ∧
        (∃ x, r.vibracion = some x ∧ x ≤ tv) := by
  simp [normalOf, List.mem_filter, optLe_eq_true_iff]
  intro _
  exact and_assoc

/-- A row of the normal partition always carries all three metric
values: the three ≤ comparisons are false on a missing value. -/
theorem normal_presion_some (l : List Reading) (tp tt tv : ℚ) (r : Reading)
    (h : r ∈ normalOf l tp tt tv) :
    (∃ x, r.presion = some x) ∧ (∃ x, r.temperatura = some x) ∧ (∃ x, r.vibracion = some x) := by
  rcases (mem_normalOf l tp tt tv r).1 h with ⟨-, ⟨p, hp, -⟩, ⟨u, hu, -⟩, ⟨w, hw, -⟩⟩
  exact ⟨⟨p, hp⟩, ⟨u, hu⟩, ⟨w, hw⟩⟩

/-! ### C3, C8, C5 -/

/-- C3: the date filter retains exactly the rows whose timestamp has a
date component in the inclusive range [start, end]; in particular a row
whose date equals start or equals end is retained. -/
theorem C3_date_filter_inclusive (df : List Reading) (s e : ℤ) (pressed : Bool)
    (tp tt tv : ℚ) (r : Reading) :
    r ∈ (runPipeline df s e tp tt tv pressed).dateFiltered ↔
      r ∈ df ∧ s ≤ dateOf r.timestamp ∧ dateOf r.timestamp ≤ e := by
  exact mem_filterByDate df s e r

/-- C8: the date-filtered row set, and hence its count, does not depend
on the thresholds (nor on the export button): only the split of those
rows into anomaly and normal partitions does. -/
theorem C8_thresholds_frame (df : List Reading) (s e : ℤ)
    (tp₁ tt₁ tv₁ tp₂ tt₂ tv₂ : ℚ) (pressed₁ pressed₂ : Bool) :
    (runPipeline df s e tp₁ tt₁ tv₁ pressed₁).dateFiltered =
        (runPipeline df s e tp₂ tt₂ tv₂ pressed₂).dateFiltered ∧
      (runPipeline df s e tp₁ tt₁ tv₁ pressed₁).dateFiltered.length =
        (runPipeline df s e tp₂ tt₂ tv₂ pressed₂).dateFiltered.length := by
  exact ⟨rfl, rfl⟩

/-- C5: the single static warning is shown iff the OR of the three
any-row strict-exceedance checks holds over the full loaded table, and
this does not depend on the selected date range. -/
theorem C5_alert_full_table (df : List Reading) (s e s₂ e₂ : ℤ) (tp tt tv : ℚ)
    (pressed pressed₂ : Bool) :
    ((runPipeline df s e tp tt tv pressed).alertShown = true ↔
      (∃ r ∈ df, ∃ x, r.presion = some x ∧ tp < x) ∨
        (∃ r ∈ df, ∃ x, r.temperatura = some x ∧ tt < x) ∨
          (∃ r ∈ df, ∃ x, r.vibracion = some x ∧ tv < x)) ∧
      (runPipeline df s e tp tt tv pressed).alertShown =
        (runPipeline df s₂ e₂ tp tt tv pressed₂).alertShown := by
  constructor
  · show thresholdAlert df tp tt tv = true ↔ _
    simp [thresholdAlert, List.any_eq_true, optGt_eq_true_iff]
    exact or_assoc
  · rfl

/-! ### The anomaly / normal split: C2, C1, C9 -/

/-- No row is in both partitions: a strict exceedance of some metric
contradicts that same metric being ≤ its threshold. -/
theorem anomalies_normal_disjoint (l : List Reading) (tp tt tv : ℚ) (r : Reading) :
    ¬(r ∈ anomaliesOf l tp tt tv ∧ r ∈ normalOf l tp tt tv) := by
  rintro ⟨ha, hn⟩
  rcases (mem_anomaliesOf l tp tt tv r).1 ha with ⟨-, h⟩
  rcases (mem_normalOf l tp tt tv r).1 hn with ⟨-, ⟨p, hp, hp2⟩, ⟨u, hu, hu2⟩, ⟨w, hw, hw2⟩⟩
  rcases h with ⟨x, hx, hx2⟩ | ⟨x, hx, hx2⟩ | ⟨x, hx, hx2⟩
  · rw [hx] at hp; cases hp; linarith
  · rw [hx] at hu; cases hu; linarith
  · rw [hx] at hw; cases hw; linarith

/-- A date-filtered row all of whose metrics are present lands in at
least one of the two partitions. -/
theorem split_complete_on_present (l : List Reading) (tp tt tv : ℚ) (r : Reading)
    (hmem : r ∈ l) (p u w : ℚ) (hp : r.presion = some p) (hu : r.temperatura = some u)
    (hw : r.vibracion = some w) :
    r ∈ anomaliesOf l tp tt tv ∨ r ∈ normalOf l tp tt tv := by
  by_cases h1 : tp < p
  · exact Or.inl ((mem_anomaliesOf l tp tt tv r).2 ⟨hmem, Or.inl ⟨p, hp, h1⟩⟩)
  by_cases h2 : tt < u
  · exact Or.inl ((mem_anomaliesOf l tp tt tv r).2 ⟨hmem, Or.inr (Or.inl ⟨u, hu, h2⟩)⟩)
  by_cases h3 : tv < w
  · exact Or.inl ((mem_anomaliesOf l tp tt tv r).2 ⟨hmem, Or.inr (Or.inr ⟨w, hw, h3⟩)⟩)
  · exact Or.inr ((mem_normalOf l tp tt tv r).2
      ⟨hmem, ⟨p, hp, le_of_not_lt h1⟩, ⟨u, hu, le_of_not_lt h2⟩, ⟨w, hw, le_of_not_lt h3⟩⟩)

/-- C2: a date-filtered row whose pressure equals the pressure
threshold exactly, with temperature and vibration below theirs, is
classified normal and not anomalous; in general a row is in the anomaly
partition only if some present metric strictly exceeds its threshold,
and in the normal partition exactly when all three metrics are present
and ≤ their thresholds. -/
theorem C2_boundary_inclusive (df : List Reading) (s e : ℤ) (tp tt tv : ℚ)
    (pressed : Bool) (r : Reading) :
    (r ∈ (runPipeline df s e tp tt tv pressed).dateFiltered → r.presion = some tp →
      (∃ u, r.temperatura = some u ∧ u < tt) → (∃ w, r.vibracion = some w ∧ w < tv) →
      r ∈ (runPipeline df s e tp tt tv pressed).normalRows ∧
        r ∉ (runPipeline df s e tp tt tv pressed).anomalies) ∧
    (r ∈ (runPipeline df s e tp tt tv pressed).anomalies →
      (∃ x, r.presion = some x ∧ tp < x) ∨ (∃ x, r.temperatura = some x ∧ tt < x) ∨
        (∃ x, r.vibracion = some x ∧ tv < x)) ∧
    (r ∈ (runPipeline df s e tp tt tv pressed).normalRows ↔
      r ∈ (runPipeline df s e tp tt tv pressed).dateFiltered ∧
        (∃ x, r.presion = some x ∧ x ≤ tp) ∧ (∃ x, r.temperatura = some x ∧ x ≤ tt) ∧
          (∃ x, r.vibracion = some x ∧ x ≤ tv)) := by
  refine ⟨?_, ?_, ?_⟩
  · intro hmem hp ⟨u, hu, hu2⟩ ⟨w, hw, hw2⟩
    have hnorm : r ∈ normalOf (filterByDate df s e) tp tt tv :=
      (mem_normalOf _ tp tt tv r).2
        ⟨hmem, ⟨tp, hp, le_refl tp⟩, ⟨u, hu, le_of_lt hu2⟩, ⟨w, hw, le_of_lt hw2⟩⟩
    exact ⟨hnorm, fun ha => anomalies_normal_disjoint (filterByDate df s e) tp tt tv r ⟨ha, hnorm⟩⟩
  · intro ha
    exact ((mem_anomaliesOf (filterByDate df s e) tp tt tv r).1 ha).2
  · exact mem_normalOf (filterByDate df s e) tp tt tv r

/-- Witness for C2: the single reading with pressure exactly 60 at
thresholds (60, 90, 1) is normal and not anomalous. -/
theorem C2_boundary_inclusive_witness :
    Reading.mk 0 (some 60) (some 0) (some 0) ∈
        (runPipeline [Reading.mk 0 (some 60) (some 0) (some 0)] 0 0 60 90 1 false).normalRows ∧
      Reading.mk 0 (some 60) (some 0) (some 0) ∉
        (runPipeline [Reading.mk 0 (some 60) (some 0) (some 0)] 0 0 60 90 1 false).anomalies :=
  (C2_boundary_inclusive [Reading.mk 0 (some 60) (some 0) (some 0)] 0 0 60 90 1 false
      (Reading.mk 0 (some 60) (some 0) (some 0))).1
    (by decide) rfl ⟨0, rfl, by decide⟩ ⟨0, rfl, by decide⟩

/-- C1 as stated is false: a date-filtered row with a missing pressure
value and in-threshold other metrics lies in neither partition. -/
theorem C1_counterexample :
    Reading.mk 0 none (some 0) (some 0) ∈
        (runPipeline [Reading.mk 0 none (some 0) (some 0)] 0 0 60 90 1 false).dateFiltered ∧
      Reading.mk 0 none (some 0) (some 0) ∉
        (runPipeline [Reading.mk 0 none (some 0) (some 0)] 0 0 60 90 1 false).anomalies ∧
      Reading.mk 0 none (some 0) (some 0) ∉
        (runPipeline [Reading.mk 0 none (some 0) (some 0)] 0 0 60 90 1 false).normalRows := by
  decide

/-- C1 amended: the two partitions are disjoint subsets of the
date-filtered rows, and every date-filtered row whose three metrics are
all present belongs to exactly one of them; a row with a missing metric
value may belong to neither. -/
theorem C1_partition (df : List Reading) (s e : ℤ) (tp tt tv : ℚ) (pressed : Bool) :
    (∀ r, ¬(r ∈ (runPipeline df s e tp tt tv pressed).anomalies ∧
        r ∈ (runPipeline df s e tp tt tv pressed).normalRows)) ∧
    (∀ r ∈ (runPipeline df s e tp tt tv pressed).anomalies,
        r ∈ (runPipeline df s e tp tt tv pressed).dateFiltered) ∧
    (∀ r ∈ (runPipeline df s e tp tt tv pressed).normalRows,
        r ∈ (runPipeline df s e tp tt tv pressed).dateFiltered) ∧
    (∀ r ∈ (runPipeline df s e tp tt tv pressed).dateFiltered,
        (∃ p, r.presion = some p) → (∃ u, r.temperatura = some u) →
        (∃ w, r.vibracion = some w) →
        (r ∈ (runPipeline df s e tp tt tv pressed).anomalies ↔
          r ∉ (runPipeline df s e tp tt tv pressed).normalRows)) := by
  refine ⟨fun r => anomalies_normal_disjoint (filterByDate df s e) tp tt tv r, ?_, ?_, ?_⟩
  · intro r hr
    exact ((mem_anomaliesOf (filterByDate df s e) tp tt tv r).1 hr).1
  · intro r hr
    exact ((mem_normalOf (filterByDate df s e) tp tt tv r).1 hr).1
  · intro r hr ⟨p, hp⟩ ⟨u, hu⟩ ⟨w, hw⟩
    constructor
    · intro ha hn
      exact anomalies_normal_disjoint (filterByDate df s e) tp tt tv r ⟨ha, hn⟩
    · intro hn
      rcases split_complete_on_present (filterByDate df s e) tp tt tv r hr p u w hp hu hw with h | h
      · exact h
      · exact absurd h hn

/-- Witness for the amended C1: at thresholds (60, 90, 1) a hot reading
is in the anomaly partition, hence (exactly one side) not normal. -/
theorem C1_partition_witness :
    Reading.mk 0 (some 70) (some 0) (some 0) ∈
        (runPipeline [Reading.mk 0 (some 70) (some 0) (some 0)] 0 0 60 90 1 false).anomalies ↔
      Reading.mk 0 (some 70) (some 0) (some 0) ∉
        (runPipeline [Reading.mk 0 (some 70) (some 0) (some 0)] 0 0 60 90 1 false).normalRows :=
  (C1_partition [Reading.mk 0 (some 70) (some 0) (some 0)] 0 0 60 90 1 false).2.2.2
    (Reading.mk 0 (some 70) (some 0) (some 0)) (by decide)
    ⟨70, rfl⟩ ⟨0, rfl⟩ ⟨0, rfl⟩

/-- C9 as stated is false: a row with a missing pressure value is still
placed in the anomaly partition when its temperature strictly exceeds
the temperature threshold. -/
theorem C9_counterexample :
    (Reading.mk 0 none (some 200) (some 0)).presion = none ∧
      Reading.mk 0 none (some 200) (some 0) ∈
        (runPipeline [Reading.mk 0 none (some 200) (some 0)] 0 0 60 90 1 false).dateFiltered ∧
      Reading.mk 0 none (some 200) (some 0) ∈
        (runPipeline [Reading.mk 0 none (some 200) (some 0)] 0 0 60 90 1 false).anomalies := by
  decide

/-- C9 amended: a date-filtered row with a missing metric value is
never in the normal partition; it is in the anomaly partition exactly
when one of its present metrics strictly exceeds its threshold, and so
it is in neither partition when no present metric does. -/
theorem C9_missing_metric (df : List Reading) (s e : ℤ) (tp tt tv : ℚ) (pressed : Bool)
    (r : Reading) (hmem : r ∈ (runPipeline df s e tp tt tv pressed).dateFiltered)
    (hmiss : r.presion = none ∨ r.temperatura = none ∨ r.vibracion = none) :
    r ∉ (runPipeline df s e tp tt tv pressed).normalRows ∧
    (r ∈ (runPipeline df s e tp tt tv pressed).anomalies ↔
      (∃ x, r.presion = some x ∧ tp < x) ∨ (∃ x, r.temperatura = some x ∧ tt < x) ∨
        (∃ x, r.vibracion = some x ∧ tv < x)) ∧
    (¬((∃ x, r.presion = some x ∧ tp < x) ∨ (∃ x, r.temperatura = some x ∧ tt < x) ∨
        (∃ x, r.vibracion = some x ∧ tv < x)) →
      r ∉ (runPipeline df s e tp tt tv pressed).anomalies ∧
        r ∉ (runPipeline df s e tp tt tv pressed).normalRows) := by
  have hnn : r ∉ normalOf (filterByDate df s e) tp tt tv := by
    intro hn
    rcases (mem_normalOf (filterByDate df s e) tp tt tv r).1 hn with
      ⟨-, ⟨p, hp, -⟩, ⟨u, hu, -⟩, ⟨w, hw, -⟩⟩
    rcases hmiss with h | h | h
    · rw [h] at hp; cases hp
    · rw [h] at hu; cases hu
    · rw [h] at hw; cases hw
  have hiff : r ∈ anomaliesOf (filterByDate df s e) tp tt tv ↔
      (∃ x, r.presion = some x ∧ tp < x) ∨ (∃ x, r.temperatura = some x ∧ tt < x) ∨
        (∃ x, r.vibracion = some x ∧ tv < x) := by
    rw [mem_anomaliesOf (filterByDate df s e) tp tt tv r]
    exact ⟨fun h => h.2, fun h => ⟨hmem, h⟩⟩
  exact ⟨hnn, hiff, fun h => ⟨fun ha => h (hiff.1 ha), hnn⟩⟩

/-- Witness for the amended C9: a reading with all three metrics
missing is excluded from both partitions. -/
theorem C9_missing_metric_witness :
    Reading.mk 0 none none none ∉
        (runPipeline [Reading.mk 0 none none none] 0 0 60 90 1 false).anomalies ∧
      Reading.mk 0 none none none ∉
        (runPipeline [Reading.mk 0 none none none] 0 0 60 90 1 false).normalRows :=
  (C9_missing_metric [Reading.mk 0 none none none] 0 0 60 90 1 false
      (Reading.mk 0 none none none) (by decide) (Or.inl rfl)).2.2
    (by rintro (⟨x, hx, -⟩ | ⟨x, hx, -⟩ | ⟨x, hx, -⟩) <;> cases hx)

/-! ### Definitional field lemmas for the pipeline record -/

theorem runPipeline_normalRows (df : List Reading) (s e : ℤ) (tp tt tv : ℚ) (b : Bool) :
    (runPipeline df s e tp tt tv b).normalRows = normalOf (filterByDate df s e) tp tt tv := rfl

theorem runPipeline_anomalies (df : List Reading) (s e : ℤ) (tp tt tv : ℚ) (b : Bool) :
    (runPipeline df s e tp tt tv b).anomalies = anomaliesOf (filterByDate df s e) tp tt tv := rfl

theorem runPipeline_exportOffered (df : List Reading) (s e : ℤ) (tp tt tv : ℚ) (b : Bool) :
    (runPipeline df s e tp tt tv b).exportOffered =
      !(normalOf (filterByDate df s e) tp tt tv).isEmpty := rfl

theorem runPipeline_exported (df : List Reading) (s e : ℤ) (tp tt tv : ℚ) (b : Bool) :
    (runPipeline df s e tp tt tv b).exported =
      if !(normalOf (filterByDate df s e) tp tt tv).isEmpty && b then
        some ⟨normalOf (filterByDate df s e) tp tt tv, false⟩
      else none := rfl

theorem runPipeline_trendMSE (df : List Reading) (s e : ℤ) (tp tt tv : ℚ) (b : Bool) :
    (runPipeline df s e tp tt tv b).trendMSE =
      if (normalOf (filterByDate df s e) tp tt tv).isEmpty then none
      else some (mseFit (dataPairs (normalOf (filterByDate df s e) tp tt tv))) := rfl

theorem runPipeline_rootCauses (df : List Reading) (s e : ℤ) (tp tt tv : ℚ) (b : Bool) :
    (runPipeline df s e tp tt tv b).rootCauses =
      if (anomaliesOf (filterByDate df s e) tp tt tv).isEmpty then none
      else
        some (possible_root_causes
          (describeRows (anomaliesOf (filterByDate df s e) tp tt tv)) tp tt tv) := rfl

theorem runPipeline_anomalyStats (df : List Reading) (s e : ℤ) (tp tt tv : ℚ) (b : Bool) :
    (runPipeline df s e tp tt tv b).anomalyStats =
      if (anomaliesOf (filterByDate df s e) tp tt tv).isEmpty then none
      else some (describeRows (anomaliesOf (filterByDate df s e) tp tt tv)) := rfl

/-! ### C6: the export section -/

/-- C6: the export action is offered exactly when the normal partition
is non-empty; with an empty normal partition nothing is exported and
the file store is untouched; when offered and pressed, the output path
holds exactly the normal partition, serialized without the row-index
column, whatever file was there before. -/
theorem C6_export_gating (df : List Reading) (s e : ℤ) (tp tt tv : ℚ) (pressed : Bool)
    (prevFs : String → Option CsvFile) :
    ((runPipeline df s e tp tt tv pressed).exportOffered = true ↔
      (runPipeline df s e tp tt tv pressed).normalRows ≠ []) ∧
    ((runPipeline df s e tp tt tv pressed).normalRows = [] →
      (runPipeline df s e tp tt tv pressed).exported = none ∧
        fsAfterRun (runPipeline df s e tp tt tv pressed) prevFs = prevFs) ∧
    (pressed = false →
      fsAfterRun (runPipeline df s e tp tt tv pressed) prevFs = prevFs) ∧
    ((runPipeline df s e tp tt tv pressed).normalRows ≠ [] → pressed = true →
      (runPipeline df s e tp tt tv pressed).exported =
          some ⟨(runPipeline df s e tp tt tv pressed).normalRows, false⟩ ∧
        fsAfterRun (runPipeline df s e tp tt tv pressed) prevFs exportPath =
          some ⟨(runPipeline df s e tp tt tv pressed).normalRows, false⟩) := by
  refine ⟨?_, ?_, ?_, ?_⟩
  · rw [runPipeline_exportOffered, runPipeline_normalRows]
    simp [List.isEmpty_iff]
  · intro hN
    rw [runPipeline_normalRows] at hN
    have hexp : (runPipeline df s e tp tt tv pressed).exported = none := by
      rw [runPipeline_exported, hN]
      simp
    refine ⟨hexp, ?_⟩
    unfold fsAfterRun
    rw [hexp]
  · intro hP
    have hexp : (runPipeline df s e tp tt tv pressed).exported = none := by
      rw [runPipeline_exported, hP]
      simp
    unfold fsAfterRun
    rw [hexp]
  · intro hN hP
    rw [runPipeline_normalRows] at hN
    have hne : (normalOf (filterByDate df s e) tp tt tv).isEmpty = false := by
      simp [List.isEmpty_iff]
      exact hN
    have hexp : (runPipeline df s e tp tt tv pressed).exported =
        some ⟨(runPipeline df s e tp tt tv pressed).normalRows, false⟩ := by
      rw [runPipeline_exported, runPipeline_normalRows, hne, hP]
      simp
    refine ⟨hexp, ?_⟩
    unfold fsAfterRun
    rw [hexp]
    simp [writeFs]

/-- Witness for C6: one in-threshold reading, button pressed, a stale
file previously at the output path — the path now holds exactly the
normal partition without an index column; and with an empty table
nothing is written. -/
theorem C6_export_gating_witness :
    (fsAfterRun
        (runPipeline [Reading.mk 0 (some 0) (some 0) (some 0)] 0 0 60 90 1 true)
        (fun _ => some ⟨[], true⟩) exportPath =
      some ⟨(runPipeline [Reading.mk 0 (some 0) (some 0) (some 0)] 0 0 60 90 1 true).normalRows,
        false⟩) ∧
    (runPipeline [] 0 0 60 90 1 true).exported = none :=
  ⟨((C6_export_gating [Reading.mk 0 (some 0) (some 0) (some 0)] 0 0 60 90 1 true
        (fun _ => some ⟨[], true⟩)).2.2.2 (by decide) rfl).2,
    ((C6_export_gating [] 0 0 60 90 1 true (fun _ => some ⟨[], true⟩)).2.1 (by decide)).1⟩

/-! ### C4 and C10: the root-cause heuristic -/

theorem rootStep_eq_append (tp tt tv : ℚ) (acc : List String) (row : StatRow) :
    rootStep tp tt tv acc row = acc ++ rowLabels tp tt tv row := by
  unfold rootStep rowLabels
  by_cases h1 : statGt row.presion tp <;> by_cases h2 : statGt row.temperatura tt <;>
    by_cases h3 : statGt row.vibracion tv <;> simp [h1, h2, h3]

theorem foldl_rootStep (tp tt tv : ℚ) (stats : List StatRow) (acc : List String) :
    stats.foldl (rootStep tp tt tv) acc = acc ++ stats.flatMap (rowLabels tp tt tv) := by
  induction stats generalizing acc with
  | nil => simp
  | cons row rest ih =>
    rw [List.foldl_cons, ih, rootStep_eq_append, List.flatMap_cons, List.append_assoc]

theorem prc_eq_flatMap (stats : List StatRow) (tp tt tv : ℚ) :
    possible_root_causes stats tp tt tv = stats.flatMap (rowLabels tp tt tv) := by
  unfold possible_root_causes
  rw [foldl_rootStep]
  rfl

theorem count_rowLabels_presion (tp tt tv : ℚ) (row : StatRow) :
    (rowLabels tp tt tv row).count "Presión alta" =
      if statGt row.presion tp then 1 else 0 := by
  unfold rowLabels
  by_cases h1 : statGt row.presion tp <;> by_cases h2 : statGt row.temperatura tt <;>
    by_cases h3 : statGt row.vibracion tv <;> simp [h1, h2, h3, List.count_cons]

theorem count_rowLabels_temperatura (tp tt tv : ℚ) (row : StatRow) :
    (rowLabels tp tt tv row).count "Temperatura alta" =
      if statGt row.temperatura tt then 1 else 0 := by
  unfold rowLabels
  by_cases h1 : statGt row.presion tp <;> by_cases h2 : statGt row.temperatura tt <;>
    by_cases h3 : statGt row.vibracion tv <;> simp [h1, h2, h3, List.count_cons]

theorem count_rowLabels_vibracion (tp tt tv : ℚ) (row : StatRow) :
    (rowLabels tp tt tv row).count "Vibración alta" =
      if statGt row.vibracion tv then 1 else 0 := by
  unfold rowLabels
  by_cases h1 : statGt row.presion tp <;> by_cases h2 : statGt row.temperatura tt <;>
    by_cases h3 : statGt row.vibracion tv <;> simp [h1, h2, h3, List.count_cons]

theorem count_flatMap_presion (tp tt tv : ℚ) (stats : List StatRow) :
    (stats.flatMap (rowLabels tp tt tv)).count "Presión alta" =
      (stats.filter (fun row => statGt row.presion tp)).length := by
  induction stats with
  | nil => rfl
  | cons row rest ih =>
    rw [List.flatMap_cons, List.count_append, ih, count_rowLabels_presion, List.filter_cons]
    by_cases h : statGt row.presion tp <;> simp [h, Nat.add_comm]

theorem count_flatMap_temperatura (tp tt tv : ℚ) (stats : List StatRow) :
    (stats.flatMap (rowLabels tp tt tv)).count "Temperatura alta" =
      (stats.filter (fun row => statGt row.temperatura tt)).length := by
  induction stats with
  | nil => rfl
  | cons row rest ih =>
    rw [List.flatMap_cons, List.count_append, ih, count_rowLabels_temperatura, List.filter_cons]
    by_cases h : statGt row.temperatura tt <;> simp [h, Nat.add_comm]

theorem count_flatMap_vibracion (tp tt tv : ℚ) (stats : List StatRow) :
    (stats.flatMap (rowLabels tp tt tv)).count "Vibración alta" =
      (stats.filter (fun row => statGt row.vibracion tv)).length := by
  induction stats with
  | nil => rfl
  | cons row rest ih =>
    rw [List.flatMap_cons, List.count_append, ih, count_rowLabels_vibracion, List.filter_cons]
    by_cases h : statGt row.vibracion tv <;> simp [h, Nat.add_comm]

/-- C4: the heuristic is the flat concatenation, over every describe()
row in order, of the labels of that row taken independently; each label
occurs once per statistics row whose corresponding value strictly
exceeds its threshold — duplicates are kept, not deduplicated. -/
theorem C4_root_cause_flat_list (stats : List StatRow) (tp tt tv : ℚ) :
    possible_root_causes stats tp tt tv = stats.flatMap (rowLabels tp tt tv) ∧
    (possible_root_causes stats tp tt tv).count "Presión alta" =
      (stats.filter (fun row => statGt row.presion tp)).length ∧
    (possible_root_causes stats tp tt tv).count "Temperatura alta" =
      (stats.filter (fun row => statGt row.temperatura tt)).length ∧
    (possible_root_causes stats tp tt tv).count "Vibración alta" =
      (stats.filter (fun row => statGt row.vibracion tv)).length := by
  rw [prc_eq_flatMap]
  exact ⟨rfl, count_flatMap_presion tp tt tv stats, count_flatMap_temperatura tp tt tv stats,
    count_flatMap_vibracion tp tt tv stats⟩

/-- The heuristic comparison on a standard-deviation entry is the exact
real comparison against sqrt: `statGt (sqrtOf q) t` decides
`t < sqrt q`. -/
theorem statGt_sqrtOf_correct (q t : ℚ) :
    statGt (StatVal.sqrtOf q) t = true ↔ (t : ℝ) < Real.sqrt (q : ℝ) := by
  have hdef : statGt (StatVal.sqrtOf q) t = if t < 0 then true else decide (t * t < q) := rfl
  rw [hdef]
  by_cases h : t < 0
  · rw [if_pos h]
    constructor
    · intro _
      have ht : (t : ℝ) < 0 := by exact_mod_cast h
      exact lt_of_lt_of_le ht (Real.sqrt_nonneg _)
    · intro _
      rfl
  · rw [if_neg h, decide_eq_true_eq]
    have ht : (0 : ℝ) ≤ (t : ℝ) := by
      have := le_of_not_lt h
      exact_mod_cast this
    constructor
    · intro hlt
      have hcast : (t : ℝ) * (t : ℝ) < (q : ℝ) := by exact_mod_cast hlt
      have h2 : (t : ℝ) ^ 2 < (q : ℝ) := by rw [sq]; exact hcast
      exact (Real.lt_sqrt ht).2 h2
    · intro hlt
      have h2 : (t : ℝ) ^ 2 < (q : ℝ) := (Real.lt_sqrt ht).1 hlt
      have hcast : (t : ℝ) * (t : ℝ) < (q : ℝ) := by rw [← sq]; exact h2
      exact_mod_cast hcast

theorem statGt_rat_iff (q t : ℚ) : statGt (StatVal.rat q) t = true ↔ t < q := by
  simp [statGt]

theorem mem_rowLabels_presion (tp tt tv : ℚ) (row : StatRow)
    (h : statGt row.presion tp = true) : "Presión alta" ∈ rowLabels tp tt tv row := by
  unfold rowLabels
  simp [h]

theorem mem_rowLabels_temperatura (tp tt tv : ℚ) (row : StatRow)
    (h : statGt row.temperatura tt = true) : "Temperatura alta" ∈ rowLabels tp tt tv row := by
  unfold rowLabels
  simp [h]

theorem mem_rowLabels_vibracion (tp tt tv : ℚ) (row : StatRow)
    (h : statGt row.vibracion tv = true) : "Vibración alta" ∈ rowLabels tp tt tv row := by
  unfold rowLabels
  simp [h]

/-- The non-missing entries of a projected column are the filterMap of
the projection. -/
theorem nonNull_map (l : List Reading) (f : Reading → Option ℚ) :
    nonNull (l.map f) = l.filterMap f := by
  simp [nonNull, List.filterMap_map]

/-- The first describe() row is the count row: per column, the number
of non-missing entries. -/
theorem describeRows_count_row (l : List Reading) :
    StatRow.mk "count" (StatVal.rat ((l.filterMap (fun r => r.presion)).length : ℚ))
        (StatVal.rat ((l.filterMap (fun r => r.temperatura)).length : ℚ))
        (StatVal.rat ((l.filterMap (fun r => r.vibracion)).length : ℚ)) ∈ describeRows l := by
  simp only [describeRows, colCount, nonNull_map]
  exact List.mem_cons_self _ _

/-- C10: the heuristic scans all eight describe() rows — count, mean,
std, min, the three quartiles, max — and emits a label as soon as any
one statistic of a column exceeds the threshold of that column; in
particular, when the count statistic of a column (its number of
non-missing entries) strictly exceeds that same threshold, the
corresponding label is in the list even if no individual reading
exceeds it. -/
theorem C10_count_row_triggers (l : List Reading) (tp tt tv : ℚ) :
    ((describeRows l).map (fun row => row.label)) =
      ["count", "mean", "std", "min", "25%", "50%", "75%", "max"] ∧
    ((∃ row ∈ describeRows l, statGt row.presion tp = true) →
      "Presión alta" ∈ possible_root_causes (describeRows l) tp tt tv) ∧
    (tp < ((l.filterMap (fun r => r.presion)).length : ℚ) →
      "Presión alta" ∈ possible_root_causes (describeRows l) tp tt tv) ∧
    (tt < ((l.filterMap (fun r => r.temperatura)).length : ℚ) →
      "Temperatura alta" ∈ possible_root_causes (describeRows l) tp tt tv) ∧
    (tv < ((l.filterMap (fun r => r.vibracion)).length : ℚ) →
      "Vibración alta" ∈ possible_root_causes (describeRows l) tp tt tv) := by
  have hgen : ∀ row ∈ describeRows l, statGt row.presion tp = true →
      "Presión alta" ∈ possible_root_causes (describeRows l) tp tt tv := by
    intro row hrow h
    rw [prc_eq_flatMap]
    exact List.mem_flatMap.2 ⟨row, hrow, mem_rowLabels_presion tp tt tv row h⟩
  refine ⟨rfl, ?_, ?_, ?_, ?_⟩
  · rintro ⟨row, hrow, h⟩
    exact hgen row hrow h
  · intro h
    exact hgen _ (describeRows_count_row l) ((statGt_rat_iff _ tp).2 h)
  · intro h
    rw [prc_eq_flatMap]
    exact List.mem_flatMap.2 ⟨_, describeRows_count_row l,
      mem_rowLabels_temperatura tp tt tv _ ((statGt_rat_iff _ tt).2 h)⟩
  · intro h
    rw [prc_eq_flatMap]
    exact List.mem_flatMap.2 ⟨_, describeRows_count_row l,
      mem_rowLabels_vibracion tp tt tv _ ((statGt_rat_iff _ tv).2 h)⟩

/-- Witness for C10: three anomaly rows whose pressures are all 1, with
pressure threshold 2 — the count statistic 3 exceeds 2, so the pressure
label appears although no reading exceeds the threshold. -/
theorem C10_count_row_triggers_witness :
    "Presión alta" ∈
      possible_root_causes
        (describeRows
          [Reading.mk 0 (some 1) (some 100) (some 1), Reading.mk 1 (some 1) (some 100) (some 1),
            Reading.mk 2 (some 1) (some 100) (some 1)]) 2 90 1 :=
  (C10_count_row_triggers
      [Reading.mk 0 (some 1) (some 100) (some 1), Reading.mk 1 (some 1) (some 100) (some 1),
        Reading.mk 2 (some 1) (some 100) (some 1)] 2 90 1).2.2.1
    (by norm_num [List.filterMap])

/-! ### C7: the trend model -/

theorem sum_map_add_distrib (l : List (ℚ × ℚ)) (f g : ℚ × ℚ → ℚ) :
    (l.map (fun x => f x + g x)).sum = (l.map f).sum + (l.map g).sum := by
  induction l with
  | nil => simp
  | cons a t ih =>
    simp only [List.map_cons, List.sum_cons, ih]
    ring

theorem sum_map_mul_left_q (l : List (ℚ × ℚ)) (c : ℚ) (f : ℚ × ℚ → ℚ) :
    (l.map (fun x => c * f x)).sum = c * (l.map f).sum := by
  induction l with
  | nil => simp
  | cons a t ih =>
    simp only [List.map_cons, List.sum_cons, ih]
    ring

theorem sum_map_const_q (l : List (ℚ × ℚ)) (c : ℚ) :
    (l.map (fun _ => c)).sum = (l.length : ℚ) * c := by
  induction l with
  | nil => simp
  | cons a t ih =>
    simp only [List.map_cons, List.sum_cons, ih, List.length_cons]
    push_cast
    ring

theorem sum_map_sq_nonneg_q (l : List (ℚ × ℚ)) (f : ℚ × ℚ → ℚ) :
    0 ≤ (l.map (fun x => f x ^ 2)).sum := by
  induction l with
  | nil => simp
  | cons a t ih =>
    simp only [List.map_cons, List.sum_cons]
    exact add_nonneg (sq_nonneg _) ih

theorem sum_map_sq_zero_q (l : List (ℚ × ℚ)) (f : ℚ × ℚ → ℚ)
    (h : (l.map (fun x => f x ^ 2)).sum = 0) : ∀ x ∈ l, f x = 0 := by
  induction l with
  | nil =>
    intro x hx
    cases hx
  | cons a t ih =>
    simp only [List.map_cons, List.sum_cons] at h
    have h1 : 0 ≤ (t.map (fun x => f x ^ 2)).sum := sum_map_sq_nonneg_q t f
    have h2 : 0 ≤ f a ^ 2 := sq_nonneg _
    have ha : f a ^ 2 = 0 := by linarith
    have ht : (t.map (fun x => f x ^ 2)).sum = 0 := by linarith
    intro x hx
    rcases List.mem_cons.1 hx with rfl | hx
    · exact sq_eq_zero_iff.1 ha
    · exact ih ht x hx

theorem length_cast_ne_zero (d : List (ℚ × ℚ)) (hd : d ≠ []) : ((d.length : ℚ)) ≠ 0 := by
  have h : d.length ≠ 0 := by simpa [List.length_eq_zero] using hd
  exact_mod_cast h

theorem sum_center_fst (d : List (ℚ × ℚ)) (hd : d ≠ []) :
    (d.map (fun p => p.1 - xbar d)).sum = 0 := by
  have hn := length_cast_ne_zero d hd
  have hfun : (fun p : ℚ × ℚ => p.1 - xbar d) =
      fun p : ℚ × ℚ => Prod.fst p + (-1) * xbar d := funext fun p => by ring
  rw [hfun, sum_map_add_distrib]
  have hconst : (d.map (fun _ : ℚ × ℚ => (-1) * xbar d)).sum = (d.length : ℚ) * ((-1) * xbar d) :=
    sum_map_const_q d ((-1) * xbar d)
  rw [hconst]
  unfold xbar
  field_simp
  ring

theorem sum_center_snd (d : List (ℚ × ℚ)) (hd : d ≠ []) :
    (d.map (fun p => p.2 - ybar d)).sum = 0 := by
  have hn := length_cast_ne_zero d hd
  have hfun : (fun p : ℚ × ℚ => p.2 - ybar d) =
      fun p : ℚ × ℚ => Prod.snd p + (-1) * ybar d := funext fun p => by ring
  rw [hfun, sum_map_add_distrib]
  have hconst : (d.map (fun _ : ℚ × ℚ => (-1) * ybar d)).sum = (d.length : ℚ) * ((-1) * ybar d) :=
    sum_map_const_q d ((-1) * ybar d)
  rw [hconst]
  unfold ybar
  field_simp
  ring

theorem sseC_expand (d : List (ℚ × ℚ)) (b : ℚ) :
    (d.map (fun p => ((p.2 - ybar d) - b * (p.1 - xbar d)) ^ 2)).sum =
      (d.map (fun p => (p.2 - ybar d) ^ 2)).sum - 2 * b * sxy d + b ^ 2 * sxx d := by
  have hfun : (fun p : ℚ × ℚ => ((p.2 - ybar d) - b * (p.1 - xbar d)) ^ 2) =
      fun p : ℚ × ℚ => (p.2 - ybar d) ^ 2 +
        ((-2 * b) * ((p.1 - xbar d) * (p.2 - ybar d)) + b ^ 2 * (p.1 - xbar d) ^ 2) :=
    funext fun p => by ring
  rw [hfun, sum_map_add_distrib, sum_map_add_distrib, sum_map_mul_left_q, sum_map_mul_left_q]
  unfold sxy sxx
  ring

theorem sse_decomp (d : List (ℚ × ℚ)) (hd : d ≠ []) (a b : ℚ) :
    sse d a b =
      (d.map (fun p => ((p.2 - ybar d) - b * (p.1 - xbar d)) ^ 2)).sum +
        (d.length : ℚ) * (ybar d - a - b * xbar d) ^ 2 := by
  have hfun : (fun p : ℚ × ℚ => (p.2 - (a + b * p.1)) ^ 2) =
      fun p : ℚ × ℚ => ((p.2 - ybar d) - b * (p.1 - xbar d)) ^ 2 +
        ((2 * (ybar d - a - b * xbar d)) * ((p.2 - ybar d) + (-b) * (p.1 - xbar d)) +
          (ybar d - a - b * xbar d) ^ 2) :=
    funext fun p => by ring
  unfold sse
  rw [hfun, sum_map_add_distrib, sum_map_add_distrib, sum_map_mul_left_q]
  have hz : (d.map (fun p => (p.2 - ybar d) + (-b) * (p.1 - xbar d))).sum = 0 := by
    rw [sum_map_add_distrib, sum_map_mul_left_q, sum_center_fst d hd, sum_center_snd d hd]
    ring
  rw [hz, sum_map_const_q]
  ring

theorem sxx_nonneg (d : List (ℚ × ℚ)) : 0 ≤ sxx d :=
  sum_map_sq_nonneg_q d (fun p => p.1 - xbar d)

theorem sxy_zero_of_sxx_zero (d : List (ℚ × ℚ)) (h : sxx d = 0) : sxy d = 0 := by
  have hz : ∀ p ∈ d, p.1 - xbar d = 0 := sum_map_sq_zero_q d (fun p => p.1 - xbar d) h
  unfold sxy
  apply List.sum_eq_zero
  intro x hx
  rcases List.mem_map.1 hx with ⟨p, hp, rfl⟩
  rw [hz p hp]
  ring

/-- The fitted line minimizes the sum of squared errors over all lines:
the fit is ordinary least squares. -/
theorem ols_optimal (d : List (ℚ × ℚ)) (a b : ℚ) :
    sse d (fitIntercept d) (fitSlope d) ≤ sse d a b := by
  by_cases hd : d = []
  · subst hd
    simp [sse]
  · have hfit : ybar d - fitIntercept d - fitSlope d * xbar d = 0 := by
      unfold fitIntercept
      ring
    have h1 : sse d (fitIntercept d) (fitSlope d) =
        (d.map (fun p => ((p.2 - ybar d) - fitSlope d * (p.1 - xbar d)) ^ 2)).sum := by
      rw [sse_decomp d hd, hfit]
      ring
    have hCle : (d.map (fun p => ((p.2 - ybar d) - fitSlope d * (p.1 - xbar d)) ^ 2)).sum ≤
        (d.map (fun p => ((p.2 - ybar d) - b * (p.1 - xbar d)) ^ 2)).sum := by
      rw [sseC_expand, sseC_expand]
      by_cases hsxx : sxx d = 0
      · rw [hsxx, sxy_zero_of_sxx_zero d hsxx]
        simp
      · have hpos : 0 < sxx d := lt_of_le_of_ne (sxx_nonneg d) (Ne.symm hsxx)
        have hkey : ((d.map (fun p => (p.2 - ybar d) ^ 2)).sum - 2 * b * sxy d + b ^ 2 * sxx d) -
            ((d.map (fun p => (p.2 - ybar d) ^ 2)).sum - 2 * fitSlope d * sxy d +
              fitSlope d ^ 2 * sxx d) =
            sxx d * (b - sxy d / sxx d) ^ 2 := by
          unfold fitSlope
          rw [if_neg hsxx]
          field_simp
          ring
        nlinarith [mul_nonneg (le_of_lt hpos) (sq_nonneg (b - sxy d / sxx d))]
    have h2 : sse d a b =
        (d.map (fun p => ((p.2 - ybar d) - b * (p.1 - xbar d)) ^ 2)).sum +
          (d.length : ℚ) * (ybar d - a - b * xbar d) ^ 2 := sse_decomp d hd a b
    have h3 : 0 ≤ (d.length : ℚ) * (ybar d - a - b * xbar d) ^ 2 := by positivity
    calc sse d (fitIntercept d) (fitSlope d)
        = (d.map (fun p => ((p.2 - ybar d) - fitSlope d * (p.1 - xbar d)) ^ 2)).sum := h1
      _ ≤ (d.map (fun p => ((p.2 - ybar d) - b * (p.1 - xbar d)) ^ 2)).sum := hCle
      _ ≤ sse d a b := by rw [h2]; linarith

/-- C7: the trend model section runs exactly when the normal partition
is non-empty (it is skipped, not an error, when empty); it reports the
mean squared error of the least-squares line fitted to the pairs
(timestamp as integer, pressure) of the normal partition, evaluated on
those same training rows — and the fitted line is optimal among all
lines on that data, so the fit is ordinary least squares. -/
theorem C7_trend_model (df : List Reading) (s e : ℤ) (tp tt tv : ℚ) (pressed : Bool) :
    ((runPipeline df s e tp tt tv pressed).normalRows = [] →
      (runPipeline df s e tp tt tv pressed).trendMSE = none) ∧
    ((runPipeline df s e tp tt tv pressed).normalRows ≠ [] →
      (runPipeline df s e tp tt tv pressed).trendMSE =
          some (mseFit (dataPairs (runPipeline df s e tp tt tv pressed).normalRows)) ∧
        mseFit (dataPairs (runPipeline df s e tp tt tv pressed).normalRows) =
          sse (dataPairs (runPipeline df s e tp tt tv pressed).normalRows)
              (fitIntercept (dataPairs (runPipeline df s e tp tt tv pressed).normalRows))
              (fitSlope (dataPairs (runPipeline df s e tp tt tv pressed).normalRows)) /
            (((dataPairs (runPipeline df s e tp tt tv pressed).normalRows).length : ℚ)) ∧
        (∀ a b : ℚ,
          sse (dataPairs (runPipeline df s e tp tt tv pressed).normalRows)
              (fitIntercept (dataPairs (runPipeline df s e tp tt tv pressed).normalRows))
              (fitSlope (dataPairs (runPipeline df s e tp tt tv pressed).normalRows)) ≤
            sse (dataPairs (runPipeline df s e tp tt tv pressed).normalRows) a b) ∧
        (∀ r ∈ (runPipeline df s e tp tt tv pressed).normalRows, ∃ x, r.presion = some x)) := by
  constructor
  · intro hN
    rw [runPipeline_normalRows] at hN
    rw [runPipeline_trendMSE, hN]
    simp
  · intro hN
    rw [runPipeline_normalRows] at hN
    have hne : (normalOf (filterByDate df s e) tp tt tv).isEmpty = false := by
      simp [List.isEmpty_iff]
      exact hN
    refine ⟨?_, rfl, fun a b => ols_optimal _ a b, ?_⟩
    · rw [runPipeline_trendMSE, hne, runPipeline_normalRows]
      simp
    · intro r hr
      rw [runPipeline_normalRows] at hr
      exact (normal_presion_some (filterByDate df s e) tp tt tv r hr).1

/-- Witness for C7: with one in-threshold reading the section reports
the in-sample mean squared error; with an empty table it is skipped. -/
theorem C7_trend_model_witness :
    (runPipeline [Reading.mk 0 (some 50) (some 80) (some 0)] 0 0 60 90 1 false).trendMSE =
        some (mseFit (dataPairs
          (runPipeline [Reading.mk 0 (some 50) (some 80) (some 0)] 0 0 60 90 1 false).normalRows)) ∧
      (runPipeline [] 0 0 60 90 1 false).trendMSE = none :=
  ⟨((C7_trend_model [Reading.mk 0 (some 50) (some 80) (some 0)] 0 0 60 90 1 false).2
      (by decide)).1,
    (C7_trend_model [] 0 0 60 90 1 false).1 rfl⟩
